import Mathlib

/-!
# gRPC greeter: server handlers, client call-loop, server lifecycle

A shallow embedding of `src/server/main.go` and `src/client/main.go`.

* Go `string` values carried by protobuf string fields are modelled by `String`.
* Go `int64` is modelled by `Int` together with `wrapInt64`, the reduction of a
  mathematical integer into the signed 64-bit range.
* A Go pointer that may be `nil` is an `Option`; a Go `error` that may be `nil`
  is an `Option GoError`.
-/

namespace Greeter

/-! ## Package `hello` (generated protobuf messages) -/

/-- An `error` value returned across the RPC boundary. -/
inductive GoError where
  | DeadlineExceeded
  | Canceled
  | Unavailable
  | Other (msg : String)
  deriving DecidableEq, Repr

/-- Modelled from the spec: the generated message `hello.HelloRequest` is not among
the sources; the data model gives it one field, `name: string`. -/
structure HelloRequest where
  Name : String
  deriving DecidableEq, Repr

/-- Modelled from the spec: the generated message `hello.HelloReply` is not among
the sources; the data model gives it one field, `message: string`. -/
structure HelloReply where
  Message : String
  deriving DecidableEq, Repr

/-- Modelled from the spec: the generated message `hello.AddRequest` is not among
the sources; the data model gives it two `int64` fields `a` and `b`. -/
structure AddRequest where
  A : Int
  B : Int
  deriving DecidableEq, Repr

/-- Modelled from the spec: the generated message `hello.AddReply` is not among
the sources; the data model gives it one `int64` field `sum`. -/
structure AddReply where
  Sum : Int
  deriving DecidableEq, Repr

/-- Modelled from the spec: the generated getter `(*HelloRequest).GetName` is not
among the sources; it reads the `name` field, and the empty string through a nil
pointer. -/
def HelloRequest.GetName : Option HelloRequest → String
  | some x => x.Name
  | none => ""

/-- Modelled from the spec: the generated getter `(*HelloReply).GetMessage` is not
among the sources; it reads the `message` field, and the empty string (the
"no response" value) through a nil pointer. -/
def HelloReply.GetMessage : Option HelloReply → String
  | some x => x.Message
  | none => ""

/-- Modelled from the spec: the generated getter `(*AddRequest).GetA` is not among
the sources; it reads field `a`, and zero through a nil pointer. -/
def AddRequest.GetA : Option AddRequest → Int
  | some x => x.A
  | none => 0

/-- Modelled from the spec: the generated getter `(*AddRequest).GetB` is not among
the sources; it reads field `b`, and zero through a nil pointer. -/
def AddRequest.GetB : Option AddRequest → Int
  | some x => x.B
  | none => 0

/-- Modelled from the spec: the generated getter `(*AddReply).GetSum` is not among
the sources; it reads field `sum`, and zero through a nil pointer. -/
def AddReply.GetSum : Option AddReply → Int
  | some x => x.Sum
  | none => 0

/-! ## Machine integers -/

/-- The least `int64`. -/
def minInt64 : Int := -(2 ^ 63)

/-- The greatest `int64`. -/
def maxInt64 : Int := 2 ^ 63 - 1

/-- Membership in the signed 64-bit range. -/
def isInt64 (x : Int) : Prop := minInt64 ≤ x ∧ x ≤ maxInt64

instance (x : Int) : Decidable (isInt64 x) := by
  unfold isInt64; infer_instance

/-- Reduction modulo `2^64` into the signed 64-bit range: what Go's `+` on `int64`
does to the mathematical result. -/
def wrapInt64 (x : Int) : Int := (x + 2 ^ 63) % 2 ^ 64 - 2 ^ 63

/-! ## `src/server/main.go`: the service handler -/

/-- A `context.Context` as a handler sees it: an optional deadline (nanoseconds)
and whether it is already done. The handlers never inspect it. -/
structure Context where
  deadline : Option Nat
  done : Bool
  deriving DecidableEq, Repr

/-- `func (s *server) SayHello(ctx, in) (*pb.HelloReply, error)`. -/
def SayHello (_ctx : Context) (req : Option HelloRequest) :
    Option HelloReply × Option GoError :=
  (some { Message := "Hello " ++ HelloRequest.GetName req }, none)

/-- `func (s *server) SayHelloAgain(ctx, in) (*pb.HelloReply, error)`. -/
def SayHelloAgain (_ctx : Context) (req : Option HelloRequest) :
    Option HelloReply × Option GoError :=
  (some { Message := "Hello again " ++ HelloRequest.GetName req }, none)

/-- `func (s *server) Add(ctx, in) (*pb.AddReply, error)`; the `+` is `int64`
addition. -/
def Add (_ctx : Context) (req : Option AddRequest) :
    Option AddReply × Option GoError :=
  (some { Sum := wrapInt64 (AddRequest.GetA req + AddRequest.GetB req) }, none)

/-! ## `src/client/main.go`: the call-loop client -/

namespace Client

/-- The two results of one `c.SayHello(ctx, ...)` as Go returns them: the reply
pointer and the error. -/
abbrev CallReturn := Option HelloReply × Option GoError

/-- What one invocation does at the transport: it succeeds with a reply, or it
ends in an error (network failure, deadline exceeded, cancellation). -/
inductive Outcome where
  | ok (reply : HelloReply)
  | fail (e : GoError)
  deriving DecidableEq, Repr

/-- Whether an outcome is a success. -/
def Outcome.isOk : Outcome → Bool
  | .ok _ => true
  | .fail _ => false

/-- Modelled from the spec: the generated client stub `greeterClient.SayHello` of
package `hello` is not among the sources. Errors at the RPC boundary are returned
as explicit result values: on success the stub hands back the reply and a nil
error, on an error it hands back the error and no reply (a nil pointer). -/
def greeterClient_SayHello : Outcome → CallReturn
  | .ok reply => (some reply, none)
  | .fail e => (none, some e)

/-- One line written by the client (standard output, or the log for `Fatal`). -/
inductive Output where
  /-- Written by `log.Fatal(what, err)`, after which the process exits with status 1. -/
  | Fatal (what : String) (e : GoError)
  /-- Written by `fmt.Println(err)`. -/
  | Println (e : GoError)
  /-- Written by `fmt.Println("d=", time.Since(t0))`, the duration in nanoseconds. -/
  | Elapsed (d : Nat)
  /-- Written by `fmt.Printf("Greeting: %s\n", msg)`. -/
  | Greeting (msg : String)
  /-- Written by `fmt.Println("count=", count)`. -/
  | Count (n : Nat)
  deriving DecidableEq, Repr

/-- The variables of `main` that the loop `loop1` reads and writes, together with
the number of calls issued so far and the lines written so far. -/
structure LoopState where
  r : Option HelloReply
  err : Option GoError
  count : Nat
  calls : Nat
  out : List Output
  deriving DecidableEq, Repr

/-- The variables on entry to `loop1`: `var r *pb.HelloReply` is nil, the error of
the successful `grpc.Dial` is nil, `count := 0`. -/
def LoopState.init : LoopState :=
  { r := none, err := none, count := 0, calls := 0, out := [] }

/-- The loop `loop1: for { ... }` of `main`. `call i` is what the `i`-th invocation
of `c.SayHello(ctx, &pb.HelloRequest{Name: name})` returns (every invocation gets the
same `ctx`). Each iteration assigns both results (`r, err = ...`); a non-nil error
is printed and breaks the loop, otherwise `count++` and the loop goes round. `none`
means the loop is still running when the fuel is used up. -/
def callLoop (call : Nat → CallReturn) : Nat → LoopState → Option LoopState
  | 0, _ => none
  | fuel + 1, st =>
    let ret := call st.calls
    let st1 : LoopState := { st with r := ret.1, err := ret.2, calls := st.calls + 1 }
    match ret.2 with
    | some e => some { st1 with out := st1.out ++ [Output.Println e] }
    | none => callLoop call fuel { st1 with count := st1.count + 1 }

/-- How `grpc.Dial("localhost:50051", grpc.WithInsecure(), grpc.WithBlock())` ends.
With `WithBlock` and no timeout the call returns only once the connection is up, or
with an error; while the server cannot be reached it does not return. -/
inductive DialResult where
  /-- The connection is up: `conn` and a nil error. -/
  | connected
  /-- The call returns the error `e`. -/
  | failed (e : GoError)
  /-- The call does not return. -/
  | blocked
  deriving DecidableEq, Repr

/-- Everything `main` takes from its surroundings. -/
structure Env where
  /-- The error of `os.Create("cpu.out")`. -/
  createCPU : Option GoError
  /-- The error of `pprof.StartCPUProfile(f)`. -/
  startCPU : Option GoError
  /-- How `grpc.Dial(...)` ends. -/
  dial : DialResult
  /-- What the `i`-th call of `c.SayHello` returns. -/
  call : Nat → CallReturn
  /-- The value of `time.Since(t0)` read after the loop, in nanoseconds. -/
  since : Nat
  /-- The error of `os.Create("mem.out")`. -/
  createMem : Option GoError
  /-- The error of `pprof.WriteHeapProfile(f)`. -/
  writeHeap : Option GoError

/-- How a run of the client ends: the lines written in order, the number of calls
issued, and whether the process was ended by `log.Fatal`. -/
structure Run where
  out : List Output
  calls : Nat
  fatal : Bool
  deriving DecidableEq, Repr

/-- The three summary lines written after the loop, in program order. -/
def summary (since : Nat) (st : LoopState) : List Output :=
  [Output.Elapsed since, Output.Greeting (HelloReply.GetMessage st.r), Output.Count st.count]

/-- The block after the summary: `os.Create("mem.out")`, `runtime.GC()` and
`pprof.WriteHeapProfile(f)`; each error goes to `log.Fatal`. The lines it writes. -/
def heapProfile (env : Env) : List Output :=
  match env.createMem with
  | some e => [Output.Fatal "could not create memory profile: " e]
  | none =>
    match env.writeHeap with
    | some e => [Output.Fatal "could not write memory profile: " e]
    | none => []

/-- The function `main` of the client. `none` means that `main` has not ended: the
dial does not return, or the loop is still running when the fuel is used up. -/
def main (env : Env) (fuel : Nat) : Option Run :=
  match env.createCPU with
  | some e =>
    some { out := [Output.Fatal "could not create CPU profile: " e], calls := 0, fatal := true }
  | none =>
    match env.startCPU with
    | some e =>
      some { out := [Output.Fatal "could not start CPU profile: " e], calls := 0, fatal := true }
    | none =>
      match env.dial with
      | .failed e => some { out := [Output.Fatal "" e], calls := 0, fatal := true }
      | .blocked => none
      | .connected =>
        match callLoop env.call fuel LoopState.init with
        | none => none
        | some st =>
          some { out := st.out ++ summary env.since st ++ heapProfile env,
                 calls := st.calls,
                 fatal := !(heapProfile env).isEmpty }

/-- An environment in which every step outside the loop succeeds, the transport
yields `t i` at the `i`-th call through the generated stub, and the clock reads
`since` after the loop. -/
def Env.ofTransport (t : Nat → Outcome) (since : Nat) : Env :=
  { createCPU := none, startCPU := none, dial := DialResult.connected,
    call := fun i => greeterClient_SayHello (t i),
    since := since, createMem := none, writeHeap := none }

/-- The number of calls among the first `n` that returned success (nil error). -/
def successes (call : Nat → CallReturn) (n : Nat) : Nat :=
  ((List.range n).filter (fun i => (call i).2.isNone)).length

/-- A transport that succeeds `n` times with the reply to `name`, as the server's
`SayHello` computes it, and fails with `e` from then on. -/
def scripted (n : Nat) (name : String) (e : GoError) : Nat → Outcome :=
  fun i => if i < n then Outcome.ok { Message := "Hello " ++ name } else Outcome.fail e

/-- The reply of the latest call among the first `n` that returned success: the
payload a report of "the last successful response" would carry. -/
def lastSuccess (call : Nat → CallReturn) : Nat → Option HelloReply
  | 0 => none
  | n + 1 => if (call n).2.isNone then (call n).1 else lastSuccess call n

end Client

/-! ## `src/server/main.go`: the lifecycle of `main` -/

namespace Server

/-- The four signals `main` registers with `signal.Notify`. -/
inductive Signal where
  | SIGHUP
  | SIGINT
  | SIGTERM
  | SIGQUIT
  deriving DecidableEq, Repr

/-- What the process writes or does, in order: the lines of `main` and of the serving
goroutine, and the call of `GracefulStop` on the transport server. -/
inductive Event where
  /-- Written by `fmt.Println("server is ready ...")`. -/
  | ready
  /-- Written by `log.Fatalf("failed to listen: %v", err)`; the process exits. -/
  | failedToListen
  /-- Written by `log.Fatalf("failed to serve: %v", err)`; the process exits. -/
  | failedToServe
  /-- Written by `log.Println("signal recieved:", sig)`. -/
  | received (sig : Signal)
  /-- The call `grpcServer.GracefulStop()`. -/
  | gracefulStop
  /-- Written by `fmt.Println("GracefulStop")`. -/
  | stopped
  /-- A signal arrived before `signal.Notify` ran: the runtime ends the process. -/
  | killed (sig : Signal)
  deriving DecidableEq, Repr

/-- Where the goroutine `go func() { ... }()` stands. -/
inductive ServePC where
  /-- Before `fmt.Println("server is ready ...")`. -/
  | ready
  /-- Before `net.Listen("tcp", port)`. -/
  | listen
  /-- Before `grpcServer = grpc.NewServer()`. -/
  | newServer
  /-- Before `pb.RegisterGreeterServer(grpcServer, &server{})`. -/
  | register
  /-- Before the call `grpcServer.Serve(lis)`. -/
  | serve
  /-- Inside `grpcServer.Serve(lis)`. -/
  | serving
  /-- `Serve` returned nil and the deferred `wg.Done()` ran: the goroutine is over. -/
  | done
  /-- The goroutine ended the process with `log.Fatalf`. -/
  | fatal
  deriving DecidableEq, Repr

/-- Where `main` stands, from `var grpcServer *grpc.Server` on. -/
inductive MainPC where
  /-- Before `wg.Add(1)` and `go func() { ... }()`. -/
  | spawn
  /-- Before `signal.Notify(signalCh, ...)`. -/
  | notify
  /-- At `sig := <-signalCh`. -/
  | receive
  /-- Before `log.Println("signal recieved:", sig)`. -/
  | logSignal
  /-- At `if grpcServer != nil`. -/
  | check
  /-- Before `grpcServer.GracefulStop()`. -/
  | stop
  /-- At `wg.Wait()`. -/
  | wait
  /-- Before `fmt.Println("GracefulStop")`. -/
  | print
  /-- After the last statement: `main` has returned. -/
  | returned
  deriving DecidableEq, Repr

/-- The state of the server process. -/
structure State where
  /-- The program counter of `main`. -/
  main : MainPC
  /-- The program counter of the serving goroutine, `none` before it is started. -/
  serve : Option ServePC
  /-- Whether the variable `grpcServer` is non-nil. -/
  grpcServer : Bool
  /-- Whether `GracefulStop` has been called on the transport server. -/
  stopping : Bool
  /-- Whether `signal.Notify` has registered `signalCh`. -/
  notified : Bool
  /-- The signals that have arrived and that the runtime has not yet passed on to
  `signalCh` (one entry per kind of signal). -/
  pending : List Signal
  /-- The buffer of `signalCh`, a channel of capacity 1. -/
  signalCh : Option Signal
  /-- The variable `sig`, once received. -/
  sig : Option Signal
  /-- The counter of `wg`. -/
  wg : Nat
  /-- Whether the process has been ended (`log.Fatalf`, or an unhandled signal). -/
  exited : Bool
  /-- What has been written and done so far. -/
  trace : List Event
  deriving DecidableEq, Repr

/-- The state at `var grpcServer *grpc.Server`, the CPU profile having been started. -/
def State.init : State :=
  { main := .spawn, serve := none, grpcServer := false, stopping := false,
    notified := false, pending := [], signalCh := none, sig := none, wg := 0,
    exited := false, trace := [] }

/-- One statement of `main`; `none` when `main` is blocked (an empty channel, a
non-zero wait group) or has returned. -/
def stepMain (st : State) : Option State :=
  match st.main with
  | .spawn => some { st with wg := st.wg + 1, serve := some .ready, main := .notify }
  | .notify => some { st with notified := true, main := .receive }
  | .receive =>
    match st.signalCh with
    | some s => some { st with sig := some s, signalCh := none, main := .logSignal }
    | none => none
  | .logSignal =>
    match st.sig with
    | some s => some { st with trace := st.trace ++ [Event.received s], main := .check }
    | none => none
  | .check => some { st with main := if st.grpcServer then .stop else .wait }
  | .stop =>
    some { st with stopping := true, trace := st.trace ++ [Event.gracefulStop], main := .wait }
  | .wait => if st.wg = 0 then some { st with main := .print } else none
  | .print => some { st with trace := st.trace ++ [Event.stopped], main := .returned }
  | .returned => none

/-- One statement of the serving goroutine; `none` when it is blocked inside `Serve`,
is over, or has not been started. `listenOk` is whether `net.Listen` succeeds. Of the
transport server this takes: `Serve` blocks until `GracefulStop` is called and then
returns nil, and `Serve` called after `GracefulStop` returns an error at once. -/
def stepServe (listenOk : Bool) (st : State) : Option State :=
  match st.serve with
  | none => none
  | some .ready => some { st with trace := st.trace ++ [Event.ready], serve := some .listen }
  | some .listen =>
    if listenOk then some { st with serve := some .newServer }
    else some { st with trace := st.trace ++ [Event.failedToListen], exited := true,
                        serve := some .fatal }
  | some .newServer => some { st with grpcServer := true, serve := some .register }
  | some .register => some { st with serve := some .serve }
  | some .serve =>
    if st.stopping then
      some { st with trace := st.trace ++ [Event.failedToServe], exited := true,
                     serve := some .fatal }
    else some { st with serve := some .serving }
  | some .serving =>
    if st.stopping then some { st with wg := st.wg - 1, serve := some .done } else none
  | some .done => none
  | some .fatal => none

/-- The arrival of a signal at the process. Once `signal.Notify` has run the runtime
notes it as pending (a second arrival of a kind already pending is merged with it);
before that the runtime ends the process. -/
def stepDeliver (sig : Signal) (st : State) : Option State :=
  if st.main = .returned then none
  else if st.notified then
    some { st with pending := if sig ∈ st.pending then st.pending else st.pending ++ [sig] }
  else some { st with trace := st.trace ++ [Event.killed sig], exited := true }

/-- The runtime passes a pending signal on to `signalCh` with a send that does not
block: it goes into the buffer if that is empty and is dropped otherwise. Which of
several pending signals goes first is up to the runtime. -/
def stepForward (sig : Signal) (st : State) : Option State :=
  if st.main = .returned then none
  else if sig ∈ st.pending then
    some { st with pending := st.pending.erase sig,
                   signalCh := match st.signalCh with
                     | none => some sig
                     | some c => some c }
  else none

/-- Who moves next. -/
inductive Action where
  | main
  | serve
  | deliver (sig : Signal)
  | forward (sig : Signal)
  deriving DecidableEq, Repr

/-- One step of the process; `none` when the action is not enabled. -/
def step (listenOk : Bool) (a : Action) (st : State) : Option State :=
  if st.exited then none
  else
    match a with
    | .main => stepMain st
    | .serve => stepServe listenOk st
    | .deliver sig => stepDeliver sig st
    | .forward sig => stepForward sig st

/-- A finite execution: the actions taken one after the other, each enabled. -/
def run (listenOk : Bool) : List Action → State → Option State
  | [], st => some st
  | a :: rest, st =>
    match step listenOk a st with
    | some st1 => run listenOk rest st1
    | none => none

/-- The number of program statements (of `main` or of the goroutine) in a schedule. -/
def programSteps : List Action → Nat
  | [] => 0
  | Action.main :: rest => programSteps rest + 1
  | Action.serve :: rest => programSteps rest + 1
  | _ :: rest => programSteps rest

/-- The lifecycle state `Serving`: the goroutine is inside `Serve` on a constructed
transport server, `main` waits for a signal, none has arrived. -/
def Serving (st : State) : Prop :=
  st.main = .receive ∧ st.serve = some .serving ∧ st.grpcServer = true ∧
  st.stopping = false ∧ st.notified = true ∧ st.pending = [] ∧ st.signalCh = none ∧
  st.sig = none ∧ st.wg = 1 ∧ st.exited = false

/-- The lifecycle state `Starting`, before the goroutine has constructed the transport
server: `main` waits for a signal, none has arrived, `grpcServer` is still nil. -/
def Starting (st : State) : Prop :=
  st.main = .receive ∧
  (st.serve = some .ready ∨ st.serve = some .listen ∨ st.serve = some .newServer) ∧
  st.grpcServer = false ∧ st.stopping = false ∧ st.notified = true ∧
  st.pending = [] ∧ st.signalCh = none ∧ st.sig = none ∧ st.wg = 1 ∧ st.exited = false

/-- Graceful drain on the arrival of `sig` in state `st`: the signal is noted, and
from then on every execution (1) can always go on until `main` has returned, (2)
has at most 16 program statements, and (3) once `main` has returned it has consumed
exactly one signal and logged it, `GracefulStop` has been called once and the serving
goroutine has finished, "GracefulStop" being written as the last line. -/
def DrainsGracefully (listenOk : Bool) (st : State) (sig : Signal) : Prop :=
  ∃ st1, step listenOk (.deliver sig) st = some st1 ∧
    ∀ acts st2, run listenOk acts st1 = some st2 →
      (st2.main = .returned ∨ (step listenOk .main st2).isSome
        ∨ (step listenOk .serve st2).isSome
        ∨ ∃ s, (step listenOk (.forward s) st2).isSome) ∧
      programSteps acts ≤ 16 ∧
      (st2.main = .returned →
        (∃ s, st2.sig = some s ∧ Event.received s ∈ st2.trace) ∧
        st2.stopping = true ∧ st2.serve = some .done ∧
        (st2.trace.filter (fun e => e matches Event.received _)).length
          = (st.trace.filter (fun e => e matches Event.received _)).length + 1 ∧
        st2.trace.count Event.gracefulStop = st.trace.count Event.gracefulStop + 1 ∧
        st2.trace.getLast? = some Event.stopped)

/-- The line `main` logs for the signal it holds in `sig`. -/
def receivedEvents : Option Signal → List Event
  | some s => [Event.received s]
  | none => []

/-- The states a process goes through once a signal has arrived in the `Serving` state
`st`, numbered by the program statements executed since; `p` is what is pending, `c`
what `signalCh` holds and `x` what the variable `sig` holds. -/
def drainPhase (st : State) (p : List Signal) (c x : Option Signal) : Nat → State
  | 0 => { st with pending := p, signalCh := c, sig := x }
  | 1 => { st with pending := p, signalCh := c, sig := x, main := .logSignal }
  | 2 => { st with pending := p, signalCh := c, sig := x, main := .check,
                   trace := st.trace ++ receivedEvents x }
  | 3 => { st with pending := p, signalCh := c, sig := x, main := .stop,
                   trace := st.trace ++ receivedEvents x }
  | 4 => { st with pending := p, signalCh := c, sig := x, main := .wait, stopping := true,
                   trace := st.trace ++ receivedEvents x ++ [Event.gracefulStop] }
  | 5 => { st with pending := p, signalCh := c, sig := x, main := .wait, stopping := true,
                   serve := some .done, wg := 0,
                   trace := st.trace ++ receivedEvents x ++ [Event.gracefulStop] }
  | 6 => { st with pending := p, signalCh := c, sig := x, main := .print, stopping := true,
                   serve := some .done, wg := 0,
                   trace := st.trace ++ receivedEvents x ++ [Event.gracefulStop] }
  | _ => { st with pending := p, signalCh := c, sig := x, main := .returned,
                   stopping := true, serve := some .done, wg := 0,
                   trace := st.trace ++ receivedEvents x ++
                     [Event.gracefulStop, Event.stopped] }

/-- What the free parts of a drain phase satisfy: before the receive, `sig` is unset
and a signal is pending or in the channel; after it, `sig` is set. -/
def PhaseOk (p : List Signal) (c x : Option Signal) : Nat → Prop
  | 0 => x = none ∧ (c ≠ none ∨ p ≠ [])
  | _ => x ≠ none

instance (st : State) : Decidable (Serving st) := by
  unfold Serving; infer_instance

instance (st : State) : Decidable (Starting st) := by
  unfold Starting; infer_instance

/-- The `Serving` state reached from `State.init` when the goroutine gets inside
`Serve` before any signal arrives. -/
def servingState : State :=
  { main := .receive, serve := some .serving, grpcServer := true, stopping := false,
    notified := true, pending := [], signalCh := none, sig := none, wg := 1,
    exited := false, trace := [Event.ready] }

/-- The `Starting` state reached from `State.init` when `main` has registered the
signals and the goroutine has not run yet. -/
def startingState : State :=
  { main := .receive, serve := some .ready, grpcServer := false, stopping := false,
    notified := true, pending := [], signalCh := none, sig := none, wg := 1,
    exited := false, trace := [] }

/-- The state in which a process ends up when an interrupt arrives in
`startingState` and `main` handles it before the goroutine runs: `main` is at
`wg.Wait()`, the goroutine is inside `Serve`, `GracefulStop` has not been called. -/
def stuckState : State :=
  { main := .wait, serve := some .serving, grpcServer := true, stopping := false,
    notified := true, pending := [], signalCh := none, sig := some Signal.SIGINT,
    wg := 1, exited := false, trace := [Event.received Signal.SIGINT, Event.ready] }

/-- The schedule after the interrupt on which `main` runs first: the runtime passes
the signal on, `main` receives it, logs it and tests `grpcServer` (still nil), then
the goroutine runs its five statements up to `Serve`. -/
def mainFirst : List Action :=
  [.forward Signal.SIGINT, .main, .main, .main, .serve, .serve, .serve, .serve, .serve]

/-- The schedule that brings the process from `State.init` into `Serving`. -/
def toServing : List Action :=
  [.main, .main, .serve, .serve, .serve, .serve, .serve]

/-- The schedule that brings the process from `State.init` into `Starting`. -/
def toStarting : List Action :=
  [.main, .main]

end Server

/-! ## Theorems -/

/-! ### The service handler -/

/-- The reduction always lands in the `int64` range. -/
theorem wrapInt64_isInt64 (x : Int) : isInt64 (wrapInt64 x) := by
  unfold isInt64 wrapInt64 minInt64 maxInt64
  omega

/-- The reduction leaves a value of the `int64` range as it is. -/
theorem wrapInt64_of_isInt64 (x : Int) (h : isInt64 x) : wrapInt64 x = x := by
  unfold isInt64 minInt64 maxInt64 at h
  unfold wrapInt64
  omega

/-- The reduction changes its argument by a multiple of `2^64`. -/
theorem wrapInt64_congr (x : Int) : (wrapInt64 x - x) % 2 ^ 64 = 0 := by
  unfold wrapInt64
  omega

/-- C1: for every context and every request name (the empty string included)
`SayHello` returns the reply whose message is `"Hello "` followed by the name
unchanged, together with a nil error. -/
theorem SayHello_message (ctx : Context) (name : String) :
    SayHello ctx (some { Name := name }) = (some { Message := "Hello " ++ name }, none) ∧
    HelloReply.GetMessage (SayHello ctx (some { Name := name })).1 = "Hello " ++ name ∧
    (SayHello ctx (some { Name := name })).2 = none ∧
    SayHello ctx (some { Name := "" }) = (some { Message := "Hello " }, none) := by
  refine ⟨rfl, rfl, rfl, rfl⟩

/-- C2: for every context and every request name (the empty string included)
`SayHelloAgain` returns the reply whose message is `"Hello again "` followed by the
name unchanged, together with a nil error. -/
theorem SayHelloAgain_message (ctx : Context) (name : String) :
    SayHelloAgain ctx (some { Name := name })
      = (some { Message := "Hello again " ++ name }, none) ∧
    HelloReply.GetMessage (SayHelloAgain ctx (some { Name := name })).1
      = "Hello again " ++ name ∧
    (SayHelloAgain ctx (some { Name := name })).2 = none ∧
    SayHelloAgain ctx (some { Name := "" }) = (some { Message := "Hello again " }, none) := by
  refine ⟨rfl, rfl, rfl, rfl⟩

/-- C3: for all `int64` values `a` and `b`, `Add` returns a nil error and a sum that
lies in the `int64` range and is congruent to `a + b` modulo `2^64`; the sum is the
mathematical `a + b` whenever that fits in `int64`. -/
theorem Add_wraparound (ctx : Context) (a b : Int) (ha : isInt64 a) (hb : isInt64 b) :
    (Add ctx (some { A := a, B := b })).2 = none ∧
    (Add ctx (some { A := a, B := b })).1 = some { Sum := wrapInt64 (a + b) } ∧
    isInt64 (AddReply.GetSum (Add ctx (some { A := a, B := b })).1) ∧
    (AddReply.GetSum (Add ctx (some { A := a, B := b })).1 - (a + b)) % 2 ^ 64 = 0 ∧
    (isInt64 (a + b) → AddReply.GetSum (Add ctx (some { A := a, B := b })).1 = a + b) ∧
    (maxInt64 < a + b → AddReply.GetSum (Add ctx (some { A := a, B := b })).1 = a + b - 2 ^ 64) ∧
    (a + b < minInt64 → AddReply.GetSum (Add ctx (some { A := a, B := b })).1 = a + b + 2 ^ 64) := by
  have hs : AddReply.GetSum (Add ctx (some { A := a, B := b })).1 = wrapInt64 (a + b) := rfl
  rw [hs]
  refine ⟨rfl, rfl, wrapInt64_isInt64 _, wrapInt64_congr _, wrapInt64_of_isInt64 _, ?_, ?_⟩
  · intro h
    unfold isInt64 minInt64 maxInt64 at ha hb
    unfold maxInt64 at h
    unfold wrapInt64
    omega
  · intro h
    unfold isInt64 minInt64 maxInt64 at ha hb
    unfold minInt64 at h
    unfold wrapInt64
    omega

/-- C3 at the concrete scenarios: `Add(2, 3)` is `5`, and `Add(max_int64, 1)` is
`min_int64` with a nil error. -/
theorem Add_wraparound_witness :
    isInt64 maxInt64 ∧ isInt64 1 ∧
    Add ⟨none, false⟩ (some { A := maxInt64, B := 1 }) = (some { Sum := minInt64 }, none) ∧
    Add ⟨none, false⟩ (some { A := 2, B := 3 }) = (some { Sum := 5 }, none) := by
  have h := Add_wraparound ⟨none, false⟩ maxInt64 1 (by decide) (by decide)
  have h2 := Add_wraparound ⟨none, false⟩ 2 3 (by decide) (by decide)
  refine ⟨by decide, by decide, ?_, ?_⟩
  · have e : wrapInt64 (maxInt64 + 1) = minInt64 := by decide
    exact Prod.ext (h.2.1.trans (by rw [e])) h.1
  · have e : wrapInt64 (2 + 3) = 5 := by decide
    exact Prod.ext (h2.2.1.trans (by rw [e])) h2.1

/-- C10: chaining `Add` is associative for all `int64` values `a`, `b`, `c`,
overflowing intermediate or final sums included. -/
theorem Add_assoc (ctx : Context) (a b c : Int)
    (_ha : isInt64 a) (_hb : isInt64 b) (_hc : isInt64 c) :
    AddReply.GetSum
        (Add ctx (some { A := AddReply.GetSum (Add ctx (some { A := a, B := b })).1,
                         B := c })).1
      = AddReply.GetSum
        (Add ctx (some { A := a,
                         B := AddReply.GetSum (Add ctx (some { A := b, B := c })).1 })).1 := by
  show wrapInt64 (wrapInt64 (a + b) + c) = wrapInt64 (a + wrapInt64 (b + c))
  unfold wrapInt64
  omega

/-- C10 at an overflowing input: `(max_int64 + 1) + (-1)` and `max_int64 + (1 + (-1))`
both come out as `max_int64`, the first through an intermediate wraparound. -/
theorem Add_assoc_witness :
    isInt64 maxInt64 ∧ isInt64 1 ∧ isInt64 (-1) ∧
    AddReply.GetSum (Add ⟨none, false⟩ (some { A := maxInt64, B := 1 })).1 = minInt64 ∧
    AddReply.GetSum
        (Add ⟨none, false⟩
          (some { A := AddReply.GetSum (Add ⟨none, false⟩ (some { A := maxInt64, B := 1 })).1,
                  B := -1 })).1
      = AddReply.GetSum
        (Add ⟨none, false⟩
          (some { A := maxInt64,
                  B := AddReply.GetSum (Add ⟨none, false⟩ (some { A := 1, B := -1 })).1 })).1 :=
  ⟨by decide, by decide, by decide, by decide,
    Add_assoc ⟨none, false⟩ maxInt64 1 (-1) (by decide) (by decide) (by decide)⟩

/-! ### The client call-loop -/

namespace Client

/-- The loop from any state that has issued at most `n` calls, when calls before the
`n`-th return a nil error and the `n`-th returns `e`: with fuel for the remaining
iterations it ends after the `n`-th call. -/
theorem callLoop_from (call : Nat → CallReturn) (n : Nat) (e : GoError)
    (hok : ∀ i, i < n → (call i).2 = none) (herr : (call n).2 = some e) :
    ∀ (fuel : Nat) (st : LoopState), st.calls ≤ n → n - st.calls < fuel →
      callLoop call fuel st
        = some { r := (call n).1, err := some e, count := st.count + (n - st.calls),
                 calls := n + 1, out := st.out ++ [Output.Println e] } := by
  intro fuel
  induction fuel with
  | zero => intro st _ h; omega
  | succ fuel ih =>
    intro st hle hlt
    unfold callLoop
    by_cases hn : st.calls = n
    · simp [hn, herr]
    · have hlt2 : st.calls < n := lt_of_le_of_ne hle hn
      simp only [hok st.calls hlt2]
      rw [ih _ (by simpa using hlt2) (by simp only; omega)]
      simp only [Option.some.injEq, LoopState.mk.injEq, true_and, and_true]
      omega

/-- The loop from the initial state. -/
theorem callLoop_init (call : Nat → CallReturn) (n : Nat) (e : GoError)
    (hok : ∀ i, i < n → (call i).2 = none) (herr : (call n).2 = some e)
    (fuel : Nat) (hfuel : n < fuel) :
    callLoop call fuel LoopState.init
      = some { r := (call n).1, err := some e, count := n, calls := n + 1,
               out := [Output.Println e] } := by
  rw [callLoop_from call n e hok herr fuel LoopState.init (Nat.zero_le _)
    (by simpa [LoopState.init] using hfuel)]
  simp [LoopState.init]

/-- With too little fuel the loop is still running. -/
theorem callLoop_running (call : Nat → CallReturn) :
    ∀ (fuel : Nat) (st : LoopState),
      (∀ i, st.calls ≤ i → i < st.calls + fuel → (call i).2 = none) →
      callLoop call fuel st = none := by
  intro fuel
  induction fuel with
  | zero => intro st _; rfl
  | succ fuel ih =>
    intro st h
    unfold callLoop
    simp only [h st.calls (le_refl _) (by omega)]
    apply ih
    intro i hi1 hi2
    exact h i (by simp only at hi1; omega) (by simp only at hi2; omega)

/-- Among the first `n + 1` calls, when the first `n` succeed and the `n`-th does not,
exactly `n` succeed. -/
theorem successes_first_error (call : Nat → CallReturn) (n : Nat)
    (hok : ∀ i, i < n → (call i).2 = none) (herr : (call n).2 ≠ none) :
    successes call (n + 1) = n := by
  unfold successes
  rw [List.range_succ, List.filter_append]
  have h1 : (List.range n).filter (fun i => (call i).2.isNone) = List.range n := by
    rw [List.filter_eq_self]
    intro i hi
    simp [hok i (List.mem_range.mp hi)]
  have h2 : [n].filter (fun i => (call i).2.isNone) = [] := by
    cases h : (call n).2 with
    | none => exact absurd h herr
    | some e => simp [h]
  rw [h1, h2]
  simp

/-- A sequence of call returns that contains an error has a first error. -/
theorem exists_first_error (call : Nat → CallReturn) (k : Nat) (hk : (call k).2 ≠ none) :
    ∃ n e, n ≤ k ∧ (∀ i, i < n → (call i).2 = none) ∧ (call n).2 = some e := by
  classical
  have hex : ∃ i, (call i).2 ≠ none := ⟨k, hk⟩
  refine ⟨Nat.find hex, ?_⟩
  have hspec := Nat.find_spec hex
  obtain ⟨e, he⟩ := Option.ne_none_iff_exists'.mp hspec
  refine ⟨e, Nat.find_min' hex hk, ?_, he⟩
  intro i hi
  by_contra hne
  exact Nat.find_min hex hi hne

/-- The run of `main` once the set-up has succeeded and the first error is the `n`-th
call, returning `e`. -/
theorem main_of_first_error (env : Env) (n : Nat) (e : GoError)
    (hcpu : env.createCPU = none) (hstart : env.startCPU = none) (hdial : env.dial = DialResult.connected)
    (hok : ∀ i, i < n → (env.call i).2 = none) (herr : (env.call n).2 = some e)
    (fuel : Nat) (hfuel : n < fuel) :
    main env fuel
      = some { out := [Output.Println e, Output.Elapsed env.since,
                       Output.Greeting (HelloReply.GetMessage (env.call n).1),
                       Output.Count n] ++ heapProfile env,
               calls := n + 1,
               fatal := !(heapProfile env).isEmpty } := by
  unfold main
  rw [hcpu, hstart, hdial]
  simp only [callLoop_init env.call n e hok herr fuel hfuel, summary]
  simp

/-- The heap-profile block writes no `Count` line. -/
theorem count_not_mem_heapProfile (env : Env) (m : Nat) :
    Output.Count m ∉ heapProfile env := by
  unfold heapProfile
  cases env.createMem <;> cases env.writeHeap <;> simp

/-- Through the generated stub the call that ends the loop hands back no reply, so
the `Greeting:` line printed after the loop is empty however many calls succeeded. -/
theorem greeting_empty_through_stub (t : Nat → Outcome) (since n : Nat) (e : GoError)
    (hok : ∀ i, i < n → (t i).isOk = true) (herr : t n = Outcome.fail e)
    (fuel : Nat) (hfuel : n < fuel) :
    main (Env.ofTransport t since) fuel
      = some { out := [Output.Println e, Output.Elapsed since, Output.Greeting "",
                       Output.Count n],
               calls := n + 1, fatal := false } := by
  have hok2 : ∀ i, i < n → ((Env.ofTransport t since).call i).2 = none := by
    intro i hi
    have h := hok i hi
    simp only [Env.ofTransport]
    cases hti : t i with
    | ok r => rfl
    | fail e2 => rw [hti] at h; exact absurd h (by simp [Outcome.isOk])
  have herr2 : ((Env.ofTransport t since).call n).2 = some e := by
    simp [Env.ofTransport, herr, greeterClient_SayHello]
  rw [main_of_first_error _ n e rfl rfl rfl hok2 herr2 fuel hfuel]
  simp [Env.ofTransport, herr, greeterClient_SayHello, heapProfile, HelloReply.GetMessage]

/-- C4: once the set-up has succeeded, for every sequence of call returns that
contains an error the loop ends: there is a first error, at index `n`, every call
before it succeeded, and with fuel for `n + 1` iterations `main` finishes having
issued exactly `n + 1` calls, of which `n` returned success, and the one `count=`
line it writes reports `n`. -/
theorem main_count_first_error (env : Env) (k : Nat)
    (hcpu : env.createCPU = none) (hstart : env.startCPU = none) (hdial : env.dial = DialResult.connected)
    (hk : (env.call k).2 ≠ none) :
    ∃ n, n ≤ k ∧ (∀ i, i < n → (env.call i).2 = none) ∧ (env.call n).2 ≠ none ∧
      ∀ fuel, n < fuel → ∃ run, main env fuel = some run ∧
        run.calls = n + 1 ∧
        successes env.call run.calls = n ∧
        (∀ m, Output.Count m ∈ run.out ↔ m = n) := by
  obtain ⟨n, e, hnk, hok, herr⟩ := exists_first_error env.call k hk
  have hne : (env.call n).2 ≠ none := by rw [herr]; exact Option.some_ne_none e
  refine ⟨n, hnk, hok, hne, ?_⟩
  intro fuel hfuel
  refine ⟨_, main_of_first_error env n e hcpu hstart hdial hok herr fuel hfuel, rfl,
    successes_first_error env.call n hok hne, ?_⟩
  intro m
  have hnot := count_not_mem_heapProfile env m
  simp only [List.mem_append, List.mem_cons, Output.Count.injEq, List.mem_singleton,
    false_or, hnot, or_false, reduceCtorEq, List.not_mem_nil]

/-- C4 on a transport that succeeds twice and then runs into the deadline: the run
ends after three calls and reports the count 2. -/
theorem main_count_first_error_witness :
    ((Env.ofTransport (scripted 2 "world" GoError.DeadlineExceeded) 1000).call 5).2 ≠ none ∧
    (∃ n, n ≤ 5 ∧
      (∀ i, i < n →
        ((Env.ofTransport (scripted 2 "world" GoError.DeadlineExceeded) 1000).call i).2 = none) ∧
      ((Env.ofTransport (scripted 2 "world" GoError.DeadlineExceeded) 1000).call n).2 ≠ none ∧
      ∀ fuel, n < fuel → ∃ run,
        main (Env.ofTransport (scripted 2 "world" GoError.DeadlineExceeded) 1000) fuel
          = some run ∧
        run.calls = n + 1 ∧
        successes (Env.ofTransport (scripted 2 "world" GoError.DeadlineExceeded) 1000).call
          run.calls = n ∧
        (∀ m, Output.Count m ∈ run.out ↔ m = n)) ∧
    main (Env.ofTransport (scripted 2 "world" GoError.DeadlineExceeded) 1000) 3
      = some { out := [Output.Println GoError.DeadlineExceeded, Output.Elapsed 1000,
                       Output.Greeting "", Output.Count 2],
               calls := 3, fatal := false } :=
  ⟨by decide,
   main_count_first_error (Env.ofTransport (scripted 2 "world" GoError.DeadlineExceeded) 1000) 5
     rfl rfl rfl (by decide),
   by decide⟩

/-- C5 (evaluation at the failing input): the transport succeeds once with
`"Hello world"` and the second call runs into the deadline. The last successful
payload is `"Hello world"`, the `Greeting:` line written after the loop is empty. -/
theorem main_greeting_after_one_success :
    lastSuccess (Env.ofTransport (scripted 1 "world" GoError.DeadlineExceeded) 1000).call 2
      = some { Message := "Hello world" } ∧
    main (Env.ofTransport (scripted 1 "world" GoError.DeadlineExceeded) 1000) 2
      = some { out := [Output.Println GoError.DeadlineExceeded, Output.Elapsed 1000,
                       Output.Greeting "", Output.Count 1],
               calls := 2, fatal := false } := by
  decide

/-- C6 as stated fails on two counts. On a transport that succeeds twice with
`"Hello world"` and is then cancelled the last successful payload is `"Hello world"`,
yet the `Greeting:` line of the summary is empty. And when the server cannot be
reached the dial does not return: `main` never ends, so the run is not ended by
`log.Fatal`. -/
theorem main_summary_counterexample :
    lastSuccess (Env.ofTransport (scripted 2 "world" GoError.Canceled) 1000).call 3
      = some { Message := "Hello world" } ∧
    main (Env.ofTransport (scripted 2 "world" GoError.Canceled) 1000) 3
      = some { out := [Output.Println GoError.Canceled, Output.Elapsed 1000,
                       Output.Greeting "", Output.Count 2],
               calls := 3, fatal := false } ∧
    ¬ ∃ fuel run,
        main { Env.ofTransport (scripted 2 "world" GoError.Canceled) 1000 with
               dial := DialResult.blocked } fuel = some run := by
  refine ⟨by decide, by decide, ?_⟩
  rintro ⟨fuel, run, h⟩
  simp [main, Env.ofTransport] at h

/-- C6 (amended): with the CPU profile started, (1) if the dial succeeded, whatever
error `e` ends the loop (at the `n`-th call), `main` writes that error and then the
three summary lines in order, the elapsed time, a `Greeting:` line and the count `n`,
and any `log.Fatal` line comes after them, from the heap-profile block; (2) if the
dial returns an error `e`, `main` writes only the `log.Fatal` line for `e`, issues no
call and ends fatally; (3) if the dial does not return, `main` never ends: no call,
no summary, no `log.Fatal`. -/
theorem main_error_handling (env : Env)
    (hcpu : env.createCPU = none) (hstart : env.startCPU = none) :
    (∀ (n : Nat) (e : GoError), env.dial = DialResult.connected →
      (∀ i, i < n → (env.call i).2 = none) → (env.call n).2 = some e →
      ∀ fuel, n < fuel → ∃ run msg, main env fuel = some run ∧
        run.out = [Output.Println e, Output.Elapsed env.since, Output.Greeting msg,
                   Output.Count n] ++ heapProfile env ∧
        run.calls = n + 1 ∧
        (env.createMem = none → env.writeHeap = none → run.fatal = false)) ∧
    (∀ (e : GoError), env.dial = DialResult.failed e → ∀ fuel,
      main env fuel = some { out := [Output.Fatal "" e], calls := 0, fatal := true }) ∧
    (env.dial = DialResult.blocked → ∀ fuel, main env fuel = none) := by
  refine ⟨?_, ?_, ?_⟩
  · intro n e hdial hok herr fuel hfuel
    refine ⟨_, _, main_of_first_error env n e hcpu hstart hdial hok herr fuel hfuel,
      rfl, rfl, ?_⟩
    intro hm hw
    simp [heapProfile, hm, hw]
  · intro e hdial fuel
    unfold main
    rw [hcpu, hstart, hdial]
  · intro hdial fuel
    unfold main
    rw [hcpu, hstart, hdial]

/-- C6 (amended) on three runs: a loop ended by a deadline error after one success,
whose summary is written in full; a dial that returns an error, fatal before any
call; and a dial that does not return. -/
theorem main_error_handling_witness :
    (∃ msg, main (Env.ofTransport (scripted 1 "gopher" GoError.DeadlineExceeded) 5) 2
      = some { out := [Output.Println GoError.DeadlineExceeded, Output.Elapsed 5,
                       Output.Greeting msg, Output.Count 1],
               calls := 2, fatal := false }) ∧
    main { Env.ofTransport (scripted 1 "gopher" GoError.DeadlineExceeded) 5 with
           dial := DialResult.failed GoError.Unavailable } 2
      = some { out := [Output.Fatal "" GoError.Unavailable], calls := 0, fatal := true } ∧
    main { Env.ofTransport (scripted 1 "gopher" GoError.DeadlineExceeded) 5 with
           dial := DialResult.blocked } 2 = none := by
  obtain ⟨run, msg, hrun, hout, hcalls, hfatal⟩ :=
    (main_error_handling (Env.ofTransport (scripted 1 "gopher" GoError.DeadlineExceeded) 5)
      rfl rfl).1 1 GoError.DeadlineExceeded rfl (by decide) (by decide) 2 (by decide)
  refine ⟨⟨msg, ?_⟩,
    (main_error_handling
      { Env.ofTransport (scripted 1 "gopher" GoError.DeadlineExceeded) 5 with
        dial := DialResult.failed GoError.Unavailable } rfl rfl).2.1 GoError.Unavailable rfl 2,
    (main_error_handling
      { Env.ofTransport (scripted 1 "gopher" GoError.DeadlineExceeded) 5 with
        dial := DialResult.blocked } rfl rfl).2.2 rfl 2⟩
  rw [hrun]
  cases run with
  | mk out calls fatal =>
    simp only at hout hcalls hfatal
    rw [hout, hcalls, hfatal rfl rfl]
    rfl

/-- C9: with the set-up done, when the very first call returns an error through the
generated stub (no reply), `main` does not fault: it writes the error, the elapsed
time, an empty `Greeting:` message and the count 0, after exactly one call. -/
theorem main_zero_success (env : Env) (e : GoError)
    (hcpu : env.createCPU = none) (hstart : env.startCPU = none) (hdial : env.dial = DialResult.connected)
    (h0 : env.call 0 = greeterClient_SayHello (Outcome.fail e))
    (fuel : Nat) (hfuel : 0 < fuel) :
    main env fuel
      = some { out := [Output.Println e, Output.Elapsed env.since, Output.Greeting "",
                       Output.Count 0] ++ heapProfile env,
               calls := 1,
               fatal := !(heapProfile env).isEmpty } := by
  have herr : (env.call 0).2 = some e := by rw [h0]; rfl
  rw [main_of_first_error env 0 e hcpu hstart hdial (fun i hi => absurd hi (Nat.not_lt_zero i))
    herr fuel hfuel]
  rw [h0]
  rfl

/-- C9 on a transport whose first call already fails (server unavailable). -/
theorem main_zero_success_witness :
    main (Env.ofTransport (scripted 0 "world" GoError.Unavailable) 7) 1
      = some { out := [Output.Println GoError.Unavailable, Output.Elapsed 7,
                       Output.Greeting "", Output.Count 0],
               calls := 1, fatal := false } :=
  main_zero_success (Env.ofTransport (scripted 0 "world" GoError.Unavailable) 7)
    GoError.Unavailable rfl rfl rfl rfl 1 (by decide)

end Client

end Greeter

/-! ### The server lifecycle -/

namespace Greeter

namespace Server

/-- One step from a drain phase leads to a drain phase: the next one for a program
statement, the same one for an arrival or a passing-on of a signal. -/
theorem step_drainPhase (listenOk : Bool) (st : State) (hs : Serving st)
    (a : Action) (p : List Signal) (c x : Option Signal) (i : Nat) (st1 : State)
    (hok : PhaseOk p c x i)
    (h : step listenOk a (drainPhase st p c x i) = some st1) :
    st1 = drainPhase st st1.pending st1.signalCh st1.sig (i + programSteps [a]) ∧
      PhaseOk st1.pending st1.signalCh st1.sig (i + programSteps [a]) ∧
      i + programSteps [a] ≤ 7 := by
  obtain ⟨m, sv, g, sp, nt, pd, ch, sg, w, ex, tr⟩ := st
  obtain ⟨h1, h2, h3, h4, h5, h6, h7, h8, h9, h10⟩ := hs
  simp only at h1 h2 h3 h4 h5 h6 h7 h8 h9 h10
  subst h1 h2 h3 h4 h5 h6 h7 h8 h9 h10
  rcases i with _ | _ | _ | _ | _ | _ | _ | i <;> cases a <;> cases c <;> cases x <;>
    simp [step, stepMain, stepServe, stepDeliver, stepForward, drainPhase, PhaseOk] at h hok <;>
    (first | subst h | (obtain ⟨hm, h⟩ := h; subst h)) <;>
    first
    | (simp [drainPhase, programSteps, PhaseOk, receivedEvents]; done)
    | (simp [drainPhase, programSteps, PhaseOk, receivedEvents]; split <;> simp_all)

/-- The program statements of a schedule, counted action by action. -/
theorem programSteps_cons (a : Action) (rest : List Action) :
    programSteps (a :: rest) = programSteps [a] + programSteps rest := by
  cases a <;> simp [programSteps] <;> omega

/-- A drain phase carries its own pending signals, channel content and `sig`. -/
theorem drainPhase_self (st : State) (p : List Signal) (c x : Option Signal) (i : Nat) :
    drainPhase st p c x i
      = drainPhase st (drainPhase st p c x i).pending (drainPhase st p c x i).signalCh
          (drainPhase st p c x i).sig i := by
  rcases i with _ | _ | _ | _ | _ | _ | _ | i <;> rfl

/-- Every execution from a drain phase ends in a drain phase, as many phases on as
it has program statements, and never goes past the last one. -/
theorem run_drainPhase (listenOk : Bool) (st : State) (hs : Serving st) :
    ∀ (acts : List Action) (p : List Signal) (c x : Option Signal) (i : Nat) (st2 : State),
      i ≤ 7 → PhaseOk p c x i →
      run listenOk acts (drainPhase st p c x i) = some st2 →
      st2 = drainPhase st st2.pending st2.signalCh st2.sig (i + programSteps acts) ∧
        PhaseOk st2.pending st2.signalCh st2.sig (i + programSteps acts) ∧
        i + programSteps acts ≤ 7 := by
  intro acts
  induction acts with
  | nil =>
    intro p c x i st2 hi hok h
    simp only [run, Option.some.injEq] at h
    subst h
    refine ⟨drainPhase_self st p c x i, ?_, by simpa [programSteps] using hi⟩
    rcases i with _ | _ | _ | _ | _ | _ | _ | i <;>
      simpa [programSteps, drainPhase, PhaseOk] using hok
  | cons a rest ih =>
    intro p c x i st2 hi hok h
    simp only [run] at h
    cases hstep : step listenOk a (drainPhase st p c x i) with
    | none => rw [hstep] at h; exact absurd h (by simp)
    | some st1 =>
      rw [hstep] at h
      obtain ⟨e1, hok1, hb⟩ := step_drainPhase listenOk st hs a p c x i st1 hok hstep
      rw [e1] at h
      have := ih _ _ _ _ st2 hb hok1 h
      rw [programSteps_cons, ← Nat.add_assoc]
      exact this

/-- What holds in every drain phase: the process can go on unless `main` has
returned, and `main` has returned only in the last phase, with one signal consumed
and logged, `GracefulStop` called once and the goroutine finished before
"GracefulStop" is written. -/
theorem drainPhase_props (listenOk : Bool) (st : State) (hs : Serving st)
    (p : List Signal) (c x : Option Signal) (i : Nat) (hok : PhaseOk p c x i) :
    ((drainPhase st p c x i).main = .returned
      ∨ (step listenOk .main (drainPhase st p c x i)).isSome
      ∨ (step listenOk .serve (drainPhase st p c x i)).isSome
      ∨ ∃ s, (step listenOk (.forward s) (drainPhase st p c x i)).isSome) ∧
    ((drainPhase st p c x i).main = .returned →
      (∃ s, (drainPhase st p c x i).sig = some s ∧
        Event.received s ∈ (drainPhase st p c x i).trace) ∧
      (drainPhase st p c x i).stopping = true ∧
      (drainPhase st p c x i).serve = some .done ∧
      ((drainPhase st p c x i).trace.filter (fun e => e matches Event.received _)).length
        = (st.trace.filter (fun e => e matches Event.received _)).length + 1 ∧
      (drainPhase st p c x i).trace.count Event.gracefulStop
        = st.trace.count Event.gracefulStop + 1 ∧
      (drainPhase st p c x i).trace.getLast? = some Event.stopped) := by
  obtain ⟨m, sv, g, sp, nt, pd, ch, sg, w, ex, tr⟩ := st
  obtain ⟨h1, h2, h3, h4, h5, h6, h7, h8, h9, h10⟩ := hs
  simp only at h1 h2 h3 h4 h5 h6 h7 h8 h9 h10
  subst h1 h2 h3 h4 h5 h6 h7 h8 h9 h10
  rcases i with _ | _ | _ | _ | _ | _ | _ | i <;> cases c <;> cases x <;>
    simp [step, stepMain, stepServe, stepForward, drainPhase, PhaseOk, receivedEvents,
      List.filter_append, List.getLast?_append, List.count_append] at hok ⊢
  exact List.exists_mem_of_ne_nil p hok

/-- A step of a process whose `main` is past the call of `GracefulStop` (at
`wg.Wait()`, at the final print, or returned) leaves `main` there and calls
`GracefulStop` no more. -/
theorem step_past_stop (listenOk : Bool) (a : Action) (st st1 : State)
    (hm : st.main = .wait ∨ st.main = .print ∨ st.main = .returned)
    (h : step listenOk a st = some st1) :
    (st1.main = .wait ∨ st1.main = .print ∨ st1.main = .returned) ∧
      st1.trace.count Event.gracefulStop = st.trace.count Event.gracefulStop ∧
      st1.stopping = st.stopping := by
  obtain ⟨m, sv, g, sp, nt, pd, ch, sg, w, ex, tr⟩ := st
  simp only at hm
  unfold step at h
  cases ex <;> simp only [Bool.false_eq_true, if_false, if_true] at h
  · cases a with
    | main =>
      rcases hm with rfl | rfl | rfl <;> simp [stepMain] at h
      · obtain ⟨_, rfl⟩ := h; simp
      · subst h; simp [List.count_append]
    | serve =>
      unfold stepServe at h
      rcases sv with _ | sv
      · simp at h
      · cases sv <;> cases listenOk <;> cases sp <;> simp at h <;> subst h <;>
          simp [hm, List.count_append]
    | deliver s =>
      unfold stepDeliver at h
      cases nt <;> simp at h <;> obtain ⟨_, rfl⟩ := h <;> simp [hm, List.count_append]
    | forward s =>
      unfold stepForward at h
      simp at h
      obtain ⟨_, _, rfl⟩ := h
      simp [hm]
  · exact absurd h (by simp)

/-- No execution of a process whose `main` is past the call of `GracefulStop` calls
`GracefulStop`. -/
theorem run_past_stop (listenOk : Bool) :
    ∀ (acts : List Action) (st st2 : State),
      (st.main = .wait ∨ st.main = .print ∨ st.main = .returned) →
      run listenOk acts st = some st2 →
      st2.trace.count Event.gracefulStop = st.trace.count Event.gracefulStop ∧
        st2.stopping = st.stopping := by
  intro acts
  induction acts with
  | nil =>
    intro st st2 _ h
    simp only [run, Option.some.injEq] at h
    subst h
    exact ⟨rfl, rfl⟩
  | cons a rest ih =>
    intro st st2 hm h
    simp only [run] at h
    cases hstep : step listenOk a st with
    | none => rw [hstep] at h; exact absurd h (by simp)
    | some st1 =>
      rw [hstep] at h
      obtain ⟨hm1, hc1, hs1⟩ := step_past_stop listenOk a st st1 hm hstep
      obtain ⟨hc2, hs2⟩ := ih st1 st2 hm1 h
      exact ⟨hc2.trans hc1, hs2.trans hs1⟩

/-- C7 (amended to the `Serving` state, with the guard): (1) whichever of the four
signals arrives while the goroutine is inside `Serve` and `main` waits on `signalCh`,
the process drains gracefully: `main` consumes one signal, calls `GracefulStop`, the
goroutine leaves `Serve` and finishes, and only then `main` gets past `wg.Wait()` and
writes "GracefulStop"; no execution gets stuck before that, under any interleaving
and with any further signals arriving; (2) is that execution itself. (3) and (4) are
the guard: when `main` tests `grpcServer` and finds it non-nil it calls `GracefulStop`
next; when it finds it nil it goes on to `wg.Wait()`, and no execution from there
calls `GracefulStop`. -/
theorem graceful_drain_from_serving (listenOk : Bool) (st : State) (hs : Serving st)
    (sig : Signal) :
    DrainsGracefully listenOk st sig ∧
    run listenOk
        [.deliver sig, .forward sig, .main, .main, .main, .main, .serve, .main, .main] st
      = some { st with sig := some sig, main := .returned, stopping := true,
                       serve := some .done, wg := 0,
                       trace := st.trace ++ [Event.received sig, Event.gracefulStop,
                                             Event.stopped] } ∧
    (∀ t : State, t.main = .check → t.exited = false → t.grpcServer = true →
      run listenOk [.main, .main] t
        = some { t with main := .wait, stopping := true,
                        trace := t.trace ++ [Event.gracefulStop] }) ∧
    (∀ t : State, t.main = .check → t.exited = false → t.grpcServer = false →
      step listenOk .main t = some { t with main := .wait } ∧
      ∀ acts t2, run listenOk (.main :: acts) t = some t2 →
        t2.trace.count Event.gracefulStop = t.trace.count Event.gracefulStop ∧
          t2.stopping = t.stopping) := by
  have hdel : step listenOk (.deliver sig) st = some (drainPhase st [sig] none none 0) := by
    obtain ⟨m, sv, g, sp, nt, pd, ch, sg, w, ex, tr⟩ := st
    obtain ⟨h1, h2, h3, h4, h5, h6, h7, h8, h9, h10⟩ := hs
    simp only at h1 h2 h3 h4 h5 h6 h7 h8 h9 h10
    subst h1 h2 h3 h4 h5 h6 h7 h8 h9 h10
    simp [step, stepDeliver, drainPhase]
  refine ⟨⟨_, hdel, ?_⟩, ?_, ?_, ?_⟩
  · intro acts st2 hrun
    obtain ⟨e, hok, hb⟩ :=
      run_drainPhase listenOk st hs acts [sig] none none 0 st2 (by omega)
        (by simp [PhaseOk]) hrun
    rw [Nat.zero_add] at e hok hb
    have hp := drainPhase_props listenOk st hs st2.pending st2.signalCh st2.sig
      (programSteps acts) hok
    rw [← e] at hp
    exact ⟨hp.1, by omega, hp.2⟩
  · obtain ⟨m, sv, g, sp, nt, pd, ch, sg, w, ex, tr⟩ := st
    obtain ⟨h1, h2, h3, h4, h5, h6, h7, h8, h9, h10⟩ := hs
    simp only at h1 h2 h3 h4 h5 h6 h7 h8 h9 h10
    subst h1 h2 h3 h4 h5 h6 h7 h8 h9 h10
    simp [run, step, stepMain, stepServe, stepDeliver, stepForward]
  · intro t hm hex hg
    obtain ⟨m, sv, g, sp, nt, pd, ch, sg, w, ex, tr⟩ := t
    simp only at hm hex hg
    subst hm hex hg
    simp [run, step, stepMain]
  · intro t hm hex hg
    have hstep : step listenOk .main t = some { t with main := .wait } := by
      obtain ⟨m, sv, g, sp, nt, pd, ch, sg, w, ex, tr⟩ := t
      simp only at hm hex hg
      subst hm hex hg
      simp [step, stepMain]
    refine ⟨hstep, ?_⟩
    intro acts t2 hrun
    simp only [run, hstep] at hrun
    exact run_past_stop listenOk acts { t with main := .wait } t2 (Or.inl rfl) hrun

/-- C7 (amended) on the `Serving` state reached from the initial state, for
`SIGTERM`; the guard on a state in which `main` tests `grpcServer` while the goroutine
has not yet constructed the server. -/
theorem graceful_drain_from_serving_witness :
    run true toServing State.init = some servingState ∧
    Serving servingState ∧
    DrainsGracefully true servingState Signal.SIGTERM ∧
    run true [.deliver Signal.SIGTERM, .forward Signal.SIGTERM, .main, .main, .main,
              .main, .serve, .main, .main] servingState
      = some { servingState with
                 sig := some Signal.SIGTERM, main := .returned, stopping := true,
                 serve := some .done, wg := 0,
                 trace := servingState.trace ++
                   [Event.received Signal.SIGTERM, Event.gracefulStop, Event.stopped] } ∧
    run true [.main, .main] { servingState with main := .check, sig := some Signal.SIGHUP }
      = some { servingState with
                 main := .wait, sig := some Signal.SIGHUP, stopping := true,
                 trace := servingState.trace ++ [Event.gracefulStop] } ∧
    step true .main { startingState with main := .check, sig := some Signal.SIGHUP }
      = some { startingState with main := .wait, sig := some Signal.SIGHUP } :=
  ⟨by decide, by decide,
   (graceful_drain_from_serving true servingState (by decide) Signal.SIGTERM).1,
   (graceful_drain_from_serving true servingState (by decide) Signal.SIGTERM).2.1,
   (graceful_drain_from_serving true servingState (by decide) Signal.SIGTERM).2.2.1
     { servingState with main := .check, sig := some Signal.SIGHUP } rfl rfl rfl,
   ((graceful_drain_from_serving true servingState (by decide) Signal.SIGTERM).2.2.2
     { startingState with main := .check, sig := some Signal.SIGHUP } rfl rfl rfl).1⟩

/-- C7 as stated fails in `Starting`: from the initial state `main` registers the
signals, an interrupt arrives before the goroutine has run, `main` receives it, finds
`grpcServer` nil and skips `GracefulStop`, and goes to `wg.Wait()`; the goroutine then
starts serving. In the state reached neither `main` nor the goroutine can take a
step and no signal is pending, `GracefulStop` has not been called and "GracefulStop"
has not been written: the process has not drained. -/
theorem starting_signal_no_drain :
    run true toStarting State.init = some startingState ∧
    Starting startingState ∧
    run true (Action.deliver Signal.SIGINT :: mainFirst) startingState = some stuckState ∧
    step true .main stuckState = none ∧
    step true .serve stuckState = none ∧
    stuckState.pending = [] ∧
    stuckState.main ≠ .returned ∧
    Event.gracefulStop ∉ stuckState.trace ∧
    Event.stopped ∉ stuckState.trace ∧
    ¬ DrainsGracefully true startingState Signal.SIGINT := by
  refine ⟨by decide, by decide, by decide, by decide, by decide, by decide, by decide,
    by decide, by decide, ?_⟩
  rintro ⟨st1, h1, h⟩
  have e : step true (.deliver Signal.SIGINT) startingState
      = some { startingState with pending := [Signal.SIGINT] } := by decide
  rw [e] at h1
  simp only [Option.some.injEq] at h1
  subst h1
  rcases (h mainFirst stuckState (by decide)).1 with h | h | h | ⟨s, h⟩
  · exact absurd h (by decide)
  · exact absurd h (by decide)
  · exact absurd h (by decide)
  · simp [step, stepForward, stuckState] at h

end Server

end Greeter
